import Mathlib

/-!
Verification of the `systemd` Go package (service installer/manager).

Shallow embedding: Go strings are `List Char`; the pure computations of
`options.go` and `main.go` (slug derivation, the three config renderers,
path construction, the Manager's config normalization) are translated as
Lean functions; the external-command bridge and the filesystem are
modelled by explicit oracles, and `Install`/`Uninstall` return their
command transcript, file-write list and result as data.
-/

namespace Systemd

/-- Go strings, embedded as lists of characters. -/
abbrev Str := List Char

/-! ### Generic string splitting and joining

`splitBy sep s` splits `s` at every occurrence of `sep` (like Go
`strings.Split` with a one-character separator); `joinBy sep`
is Go `strings.Join` with a one-character separator. -/

/-- Split a character list at every occurrence of `sep`; always returns at
least one (possibly empty) component. -/
def splitBy (sep : Char) : List Char → List (List Char)
  | [] => [[]]
  | c :: cs =>
    if c = sep then [] :: splitBy sep cs
    else
      match splitBy sep cs with
      | [] => [[c]]
      | t :: ts => (c :: t) :: ts

/-- Join components with a one-character separator (Go `strings.Join`). -/
def joinBy (sep : Char) : List (List Char) → List Char
  | [] => []
  | x :: xs => x ++ (xs.map (fun y => sep :: y)).flatten

/-! ### Go `path/filepath` (Unix rules)

`goFilepathBase` and `goFilepathDir` are translated from Go
`path/filepath.Base` and `path/filepath.Dir` with an empty volume name
(Unix). `goFilepathClean` implements `path/filepath.Clean` through its
documented component rules (collapse separator runs, drop `.` elements,
let `..` pop the preceding non-`..` element, drop leading `..` of a
rooted path), which is the standard functional reading of the
imperative loop in the Go source. -/

/-- Is `c` the (Unix) path separator? -/
def isSep (c : Char) : Bool := c = '/'

/-- Remove the trailing run of separators. -/
def stripTrailingSep (p : Str) : Str := (p.reverse.dropWhile isSep).reverse

/-- The suffix after the last separator (the whole string if none). -/
def afterLastSep (p : Str) : Str :=
  (p.reverse.takeWhile (fun c => !isSep c)).reverse

/-- The prefix up to and including the last separator (empty if none). -/
def upToLastSep (p : Str) : Str :=
  (p.reverse.dropWhile (fun c => !isSep c)).reverse

/-- One step of `Clean`'s component processing. -/
def cleanStep (rooted : Bool) (acc : List Str) (comp : Str) : List Str :=
  if comp = [] ∨ comp = ['.'] then acc
  else if comp = ['.', '.'] then
    if acc ≠ [] ∧ acc.getLast? ≠ some ['.', '.'] then acc.dropLast
    else if rooted then acc
    else acc ++ [comp]
  else acc ++ [comp]

/-- Go `path/filepath.Clean` (Unix), via its documented component rules. -/
def goFilepathClean (p : Str) : Str :=
  if p = [] then ['.']
  else
    let rooted := isSep (p.headD ' ')
    let comps := (splitBy '/' p).foldl (cleanStep rooted) []
    if comps = [] then (if rooted then ['/'] else ['.'])
    else (if rooted then ['/'] else []) ++ joinBy '/' comps

/-- Go `path/filepath.Base` (Unix): empty path gives `.`; trailing
separators are stripped; then the part after the last separator; all
separators gives `/`. -/
def goFilepathBase (p : Str) : Str :=
  if p = [] then ['.']
  else
    let q := afterLastSep (stripTrailingSep p)
    if q = [] then ['/'] else q

/-- Go `path/filepath.Dir` (Unix): `Clean` of everything up to and
including the last separator. -/
def goFilepathDir (p : Str) : Str := goFilepathClean (upToLastSep p)

/-- `NoSep b` means `b` contains no path separator. -/
abbrev NoSep (b : Str) : Prop := ∀ c ∈ b, ¬isSep c

/-! ### The repository's data model (`main.go`, `options.go`) -/

/-- Character class kept by `sanitize`'s regular expression
`[^a-zA-Z0-9_-]` (a character is kept iff it does NOT match). -/
def isSlugChar (c : Char) : Bool :=
  (97 ≤ c.toNat && c.toNat ≤ 122) || (65 ≤ c.toNat && c.toNat ≤ 90) ||
    (48 ≤ c.toNat && c.toNat ≤ 57) || c == '_' || c == '-'

/-- `options.go` `sanitize`: replace every character outside
`[a-zA-Z0-9_-]` with the empty string, i.e. keep exactly the characters
of the class, in order. -/
def sanitize (s : Str) : Str := s.filter isSlugChar

/-- `main.go` `configFileMode = 0o644`. -/
def configFileMode : Nat := 0o644

/-- `main.go` `ServiceConfig`. Go's `Streams map[string]string` is an
unordered hash map whose iteration order is not determined by its
contents; it is embedded as an association list recording the key/value
pairs in one possible iteration order (a `nil` map and an empty map
both become `[]`). -/
structure ServiceConfig where
  User : Str
  Group : Str
  UniqueName : Str
  ServiceName : Str
  BinaryPath : Str
  LogDir : Str
  SystemdFile : Str
  ServiceLines : List Str
  MakeLogrotate : Bool
  Streams : List (Str × Str)
deriving Repr, DecidableEq

/-- `options.go` `NewServiceConfig` before options are applied: derives
`UniqueName` as `sanitize(Base(Dir(bin))) + "-" + sanitize(Base(bin))`,
`ServiceName` as `UniqueName + ".service"`, and the default
`SystemdFile`. The derivation is purely string computation — no
filesystem access occurs in the Go source. -/
def newServiceConfig (user group bin logDir : Str) : ServiceConfig :=
  let baseName := sanitize (goFilepathBase bin)
  let dirName := sanitize (goFilepathBase (goFilepathDir bin))
  let uniqueName := dirName ++ '-' :: baseName
  let serviceName := uniqueName ++ ".service".toList
  { User := user
    Group := group
    UniqueName := uniqueName
    ServiceName := serviceName
    BinaryPath := bin
    LogDir := logDir
    SystemdFile := "/etc/systemd/system/".toList ++ serviceName
    ServiceLines := []
    MakeLogrotate := false
    Streams := [] }

/-- `options.go` `NewServiceConfig` with its functional options applied
left to right after the base record is built. -/
def newServiceConfigWith (user group bin logDir : Str)
    (opts : List (ServiceConfig → ServiceConfig)) : ServiceConfig :=
  opts.foldl (fun c f => f c) (newServiceConfig user group bin logDir)

/-- `main.go` `NewManager`'s configuration normalization: default the
`SystemdFile` path when empty, then force `MakeLogrotate` off when
`LogDir` is empty. (The copy itself is value semantics here; the Go
shallow-copy sharing of the `Streams` map is modelled separately.) -/
def newManagerCfg (cfg : ServiceConfig) : ServiceConfig :=
  let c1 :=
    if cfg.SystemdFile = [] then
      { cfg with SystemdFile := "/etc/systemd/system/".toList ++ cfg.ServiceName }
    else cfg
  if c1.MakeLogrotate ∧ c1.LogDir = [] then { c1 with MakeLogrotate := false }
  else c1

/-- `main.go` `rsyslogPath`: `/etc/rsyslog.d/<UniqueName>.conf`. -/
def rsyslogPath (c : ServiceConfig) : Str :=
  "/etc/rsyslog.d/".toList ++ c.UniqueName ++ ".conf".toList

/-- `main.go` `logrotateCorePath`: `/etc/logrotate.d/<UniqueName>`. -/
def logrotateCorePath (c : ServiceConfig) : Str :=
  "/etc/logrotate.d/".toList ++ c.UniqueName

/-- One file write performed by the installer: target path, content,
and the permission mode handed to `os.WriteFile`. -/
structure FileWrite where
  path : Str
  content : Str
  mode : Nat
deriving Repr, DecidableEq

/-- Content of the systemd unit file rendered by `writeSystemdUnit`,
byte for byte, including the verbatim `ServiceLines` splice (joined
with newlines and followed by one newline when nonempty). -/
def systemdUnitText (c : ServiceConfig) : Str :=
  let extraLines :=
    if c.ServiceLines.length > 0 then joinBy '\n' c.ServiceLines ++ ['\n'] else []
  "[Unit]\nDescription=".toList ++ c.UniqueName
    ++ "\nAfter=network.target\n\n[Service]\nType=notify\nExecStart=".toList
    ++ c.BinaryPath
    ++ "\nRestart=on-failure\nUser=".toList ++ c.User
    ++ "\nGroup=".toList ++ c.Group ++ ['\n']
    ++ extraLines
    ++ "[Install]\nWantedBy=multi-user.target\n".toList

/-- `main.go` `writeSystemdUnit` as the file write it performs. -/
def writeSystemdUnit (c : ServiceConfig) : FileWrite :=
  { path := c.SystemdFile, content := systemdUnitText c, mode := configFileMode }

/-- One per-stream rsyslog rule block rendered inside
`writeRsyslogConf`'s loop (argument order in the Go format string:
stream name, LogDir, file name, UniqueName, User, Group, User, Group). -/
def rsyslogStreamBlock (c : ServiceConfig) (streamName fileName : Str) : Str :=
  "if $msg contains 'stream=".toList ++ streamName
    ++ "' then \x7b\n\taction(type=\"omfile\" file=\"".toList
    ++ c.LogDir ++ ['/'] ++ fileName
    ++ "\" template=\"".toList ++ c.UniqueName
    ++ "\"\n         dirCreateMode=\"0750\" dirOwner=\"".toList ++ c.User
    ++ "\" dirGroup=\"".toList ++ c.Group
    ++ "\"\n\t\t fileCreateMode=\"0640\" fileOwner=\"".toList ++ c.User
    ++ "\" fileGroup=\"".toList ++ c.Group
    ++ "\")\n\tstop\n\x7d".toList

/-- Content of the rsyslog config rendered by `writeRsyslogConf`: the
fixed module/template header followed by the stream blocks joined with
newlines, in the map iteration order recorded in `Streams`. -/
def rsyslogConfText (c : ServiceConfig) : Str :=
  "module(load=\"imuxsock\")\nmodule(load=\"imklog\")\nmodule(load=\"omfile\")\ntemplate(name=\"".toList
    ++ c.UniqueName ++ "\" type=\"string\" string=\"%msg%\\n\")\n".toList
    ++ joinBy '\n' (c.Streams.map (fun kv => rsyslogStreamBlock c kv.1 kv.2))

/-- `main.go` `writeRsyslogConf`: returns `none` (no file written) when
the stream map is empty, otherwise the single file write it performs. -/
def writeRsyslogConf (c : ServiceConfig) : Option FileWrite :=
  if c.Streams.length = 0 then none
  else some { path := rsyslogPath c, content := rsyslogConfText c, mode := configFileMode }

/-- Content of one per-stream logrotate config rendered inside
`writeLogrotateConfs`'s loop. -/
def logrotateConfText (c : ServiceConfig) (fileName : Str) : Str :=
  c.LogDir ++ ['/'] ++ fileName
    ++ " \x7b\n\tweekly\n\trotate 8\n\tsize 100M\n\tcompress\n\tdelaycompress\n\tmissingok\n\tnotifempty\n\tcreate 0640 ".toList
    ++ c.User ++ [' '] ++ c.Group
    ++ "\n\tsharedscripts\n\tpostrotate\n\t\tsystemctl kill -s HUP rsyslog.service\n\tendscript\n\x7d".toList

/-- `main.go` `writeLogrotateConfs`: nothing when `MakeLogrotate` is
off or the stream map is `nil` (an empty loop gives the same result for
an empty non-`nil` map); otherwise one write per stream at
`logrotateCorePath + "-" + streamName`. -/
def writeLogrotateConfs (c : ServiceConfig) : List FileWrite :=
  if !c.MakeLogrotate then []
  else
    c.Streams.map (fun kv =>
      { path := logrotateCorePath c ++ '-' :: kv.1
        content := logrotateConfText c kv.2
        mode := configFileMode })

/-! ### The command bridge and the two orchestrations

External commands are modelled by a `Bridge` oracle fixing the outcome
of each probe/command, and `Install`/`Uninstall` are embedded as pure
functions returning the transcript of commands issued, the file writes
performed, and the returned error. File writes themselves always
succeed in this model (no claim concerns a failing write during
install). -/

/-- External commands invoked through `execOutput`/`execCommand`. -/
inductive GoCmd where
  | idUser (u : Str)
  | useradd (u : Str)
  | getentGroup (g : Str)
  | groupadd (g : Str)
  | daemonReload
  | enableNow (s : Str)
  | disable (s : Str)
  | stopUnit (s : Str)
deriving Repr, DecidableEq

/-- Oracle for the outcomes of the external commands: whether each
probe reports existence and whether each command exits successfully. -/
structure Bridge where
  userExists : Bool
  useraddOk : Bool
  groupExists : Bool
  groupaddOk : Bool
  daemonReloadOk : Bool
  enableOk : Bool
deriving Repr, DecidableEq

/-- Errors returned by the orchestrations. -/
inductive SvcError where
  | createUserFailed (u : Str)
  | createGroupFailed (g : Str)
  | commandFailed (c : GoCmd)
deriving Repr, DecidableEq

/-- Group half of `ensureServiceUser`: probe `getent group`, create the
group with `groupadd --system` only when the probe fails. `cs` is the
command transcript so far. -/
def ensureGroupAfter (br : Bridge) (group : Str) (cs : List GoCmd) :
    List GoCmd × Option SvcError :=
  let cs2 := cs ++ [GoCmd.getentGroup group]
  if br.groupExists then (cs2, none)
  else
    let cs3 := cs2 ++ [GoCmd.groupadd group]
    if br.groupaddOk then (cs3, none)
    else (cs3, some (SvcError.createGroupFailed group))

/-- `main.go` `ensureServiceUser`: probe `id -u`, create the user with
`useradd --system` only when the probe fails, then the group half.
Returns the commands issued and the error returned, if any. -/
def ensureServiceUser (br : Bridge) (user group : Str) :
    List GoCmd × Option SvcError :=
  let probe := [GoCmd.idUser user]
  if br.userExists then ensureGroupAfter br group probe
  else
    let cs := probe ++ [GoCmd.useradd user]
    if br.useraddOk then ensureGroupAfter br group cs
    else (cs, some (SvcError.createUserFailed user))

/-- Result of one `Install` or `Uninstall` run: commands issued in
order, files written in order, and the error returned (`none` means
success). -/
structure RunResult where
  cmds : List GoCmd
  writes : List FileWrite
  result : Option SvcError
deriving Repr, DecidableEq

/-- `main.go` `Install` on the Manager's configuration `c`: ensure the
user and group, then (when `LogDir` is nonempty) write the rsyslog
config and (when additionally `MakeLogrotate`) the logrotate configs,
then the unit file, then `systemctl daemon-reload` and
`systemctl enable --now`. Any failure aborts the remaining stages. -/
def installRun (br : Bridge) (c : ServiceConfig) : RunResult :=
  match ensureServiceUser br c.User c.Group with
  | (cs, some e) => { cmds := cs, writes := [], result := some e }
  | (cs, none) =>
    let ws1 := if c.LogDir ≠ [] then (writeRsyslogConf c).toList else []
    let ws2 :=
      if c.LogDir ≠ [] ∧ c.MakeLogrotate then writeLogrotateConfs c else []
    let writes := ws1 ++ ws2 ++ [writeSystemdUnit c]
    let cs2 := cs ++ [GoCmd.daemonReload]
    if !br.daemonReloadOk then
      { cmds := cs2, writes := writes
        result := some (SvcError.commandFailed GoCmd.daemonReload) }
    else
      let cs3 := cs2 ++ [GoCmd.enableNow c.ServiceName]
      if !br.enableOk then
        { cmds := cs3, writes := writes
          result := some (SvcError.commandFailed (GoCmd.enableNow c.ServiceName)) }
      else { cmds := cs3, writes := writes, result := none }

/-- `NewManager` followed by `Install`: the Manager installs the
normalized copy of the caller's configuration. -/
def managerInstall (br : Bridge) (cfg : ServiceConfig) : RunResult :=
  installRun br (newManagerCfg cfg)

/-- Outcome of one `os.Remove` call: success, the not-found error
(`os.IsNotExist`), or any other removal failure. -/
inductive RemoveRes where
  | ok
  | notExist
  | failed
deriving Repr, DecidableEq

/-- The removal list built by `Uninstall` in `main.go`: the unit file,
the rsyslog config, and the single literal string
`logrotateCorePath(c) + "-*"`. (`os.Remove` performs no glob
expansion, so the third entry is one literal path containing `*`.) -/
def filesToRemove (c : ServiceConfig) : List Str :=
  [c.SystemdFile, rsyslogPath c, logrotateCorePath c ++ "-*".toList]

/-- Result of one `Uninstall` run: commands issued, every path passed
to `os.Remove` (the loop runs over all of them unconditionally), the
removal errors reported through the error conduit (failures other than
not-found), and the returned error. -/
structure UninstallResult where
  cmds : List GoCmd
  removesAttempted : List Str
  reportedRemoveErrors : List Str
  result : Option SvcError
deriving Repr, DecidableEq

/-- `main.go` `Uninstall`: best-effort `disable` and `stop`, then
`os.Remove` on each entry of `filesToRemove` (errors other than
not-found are reported via the error channel and do not stop the
loop), then `daemon-reload`, the only stage whose failure is
returned. `rem` is the filesystem oracle for `os.Remove`. -/
def uninstallRun (br : Bridge) (rem : Str → RemoveRes) (c : ServiceConfig) :
    UninstallResult :=
  let cs := [GoCmd.disable c.ServiceName, GoCmd.stopUnit c.ServiceName]
  let paths := filesToRemove c
  let reported := paths.filter (fun p => rem p == RemoveRes.failed)
  let cs2 := cs ++ [GoCmd.daemonReload]
  if !br.daemonReloadOk then
    { cmds := cs2, removesAttempted := paths, reportedRemoveErrors := reported
      result := some (SvcError.commandFailed GoCmd.daemonReload) }
  else
    { cmds := cs2, removesAttempted := paths, reportedRemoveErrors := reported
      result := none }

/-! ### Go shallow-copy semantics of `NewManager` (for the snapshot claim)

In Go, `configCopy := *cfg` copies the struct fields; a field of map
type is a reference (a pointer to the shared hash table), so the copy
and the original share one table. This is modelled with an explicit
heap of map tables addressed by `MapRef`. -/

/-- Reference to a Go map's backing table. -/
abbrev MapRef := Nat

/-- Heap of map tables, indexed by `MapRef`. -/
abbrev Heap := List (List (Str × Str))

/-- Go map assignment `m[k] = v` on a table: last write wins per key. -/
def tableAssign (m : List (Str × Str)) (k v : Str) : List (Str × Str) :=
  if m.any (fun kv => kv.1 == k) then
    m.map (fun kv => if kv.1 == k then (k, v) else kv)
  else m ++ [(k, v)]

/-- Write `m[k] = v` through a map reference. -/
def heapAssign (h : Heap) (r : MapRef) (k v : Str) : Heap :=
  h.set r (tableAssign (h.getD r []) k v)

/-- The runtime representation of the `ServiceConfig` fields relevant
to the snapshot claim: the `Streams` field holds a reference into the
heap, not the table itself. -/
structure ServiceConfigRT where
  ServiceName : Str
  SystemdFile : Str
  LogDir : Str
  MakeLogrotate : Bool
  streamsRef : MapRef
deriving Repr, DecidableEq

/-- `NewManager`'s `configCopy := *cfg` under Go struct-copy semantics,
followed by the two normalizations: every field is copied by value, and
the map field's value IS its reference, which is therefore shared with
the caller's struct. -/
def newManagerCopyRT (cfg : ServiceConfigRT) : ServiceConfigRT :=
  let c1 :=
    if cfg.SystemdFile = [] then
      { cfg with SystemdFile := "/etc/systemd/system/".toList ++ cfg.ServiceName }
    else cfg
  if c1.MakeLogrotate ∧ c1.LogDir = [] then { c1 with MakeLogrotate := false }
  else c1

/-- The stream table a configuration observes through its reference. -/
def observedStreams (h : Heap) (cfg : ServiceConfigRT) : List (Str × Str) :=
  h.getD cfg.streamsRef []

/-! ### Line decompositions of the rendered texts

The renderers build flat strings; the following definitions give their
line structure (proved equal to the flat output below) so that claims
about per-line properties (verbatim splice order, one rule per stream,
stop-directive counts) can be stated. -/

/-- `NoNl s` means `s` contains no newline, i.e. it is a single line
when spliced into a rendered file. -/
abbrev NoNl (s : Str) : Prop := '\n' ∉ s

/-- Does `l` start with `pre`? -/
def startsWithChars : Str → Str → Bool
  | [], _ => true
  | _ :: _, [] => false
  | p :: ps, c :: cs => p == c && startsWithChars ps cs

/-- Number of lines equal to `target`. -/
def countLine (target : Str) : List Str → Nat
  | [] => 0
  | l :: ls => (if l = target then 1 else 0) + countLine target ls

/-- Number of lines starting with `pre`. -/
def countStarting (pre : Str) : List Str → Nat
  | [] => 0
  | l :: ls => (if startsWithChars pre l then 1 else 0) + countStarting pre ls

/-- The fixed lines of the unit file before the `ServiceLines` splice. -/
def unitHeaderLines (c : ServiceConfig) : List Str :=
  ["[Unit]".toList, "Description=".toList ++ c.UniqueName,
    "After=network.target".toList, [], "[Service]".toList, "Type=notify".toList,
    "ExecStart=".toList ++ c.BinaryPath, "Restart=on-failure".toList,
    "User=".toList ++ c.User, "Group=".toList ++ c.Group]

/-- The fixed lines of the unit file after the `ServiceLines` splice
(the trailing empty component encodes the final newline). -/
def unitFooterLines : List Str :=
  ["[Install]".toList, "WantedBy=multi-user.target".toList, []]

/-- The unit file as a list of lines: fixed header, then the
`ServiceLines` verbatim in order, then the fixed footer. -/
def unitLines (c : ServiceConfig) : List Str :=
  unitHeaderLines c ++ c.ServiceLines ++ unitFooterLines

/-- The four header lines of the rsyslog config. -/
def rsyslogHeaderLines (c : ServiceConfig) : List Str :=
  ["module(load=\"imuxsock\")".toList, "module(load=\"imklog\")".toList,
    "module(load=\"omfile\")".toList,
    "template(name=\"".toList ++ c.UniqueName
      ++ "\" type=\"string\" string=\"%msg%\\n\")".toList]

/-- The fixed prefix of a stream's filter line. -/
def rulePrefix : Str := "if $msg contains 'stream=".toList

/-- The filter line opening one stream's rule block. -/
def ruleLine (streamName : Str) : Str :=
  rulePrefix ++ streamName ++ "' then \x7b".toList

/-- The `stop` directive line of a rule block. -/
def stopLine : Str := "\tstop".toList

/-- The six lines of one stream's rule block. -/
def rsyslogBlockLines (c : ServiceConfig) (streamName fileName : Str) : List Str :=
  [ruleLine streamName,
    "\taction(type=\"omfile\" file=\"".toList ++ c.LogDir ++ ['/'] ++ fileName
      ++ "\" template=\"".toList ++ c.UniqueName ++ "\"".toList,
    "         dirCreateMode=\"0750\" dirOwner=\"".toList ++ c.User
      ++ "\" dirGroup=\"".toList ++ c.Group ++ "\"".toList,
    "\t\t fileCreateMode=\"0640\" fileOwner=\"".toList ++ c.User
      ++ "\" fileGroup=\"".toList ++ c.Group ++ "\")".toList,
    stopLine, "\x7d".toList]

/-- The rsyslog config as a list of lines: the header then the blocks
of all streams in iteration order. -/
def rsyslogLines (c : ServiceConfig) : List Str :=
  rsyslogHeaderLines c
    ++ (c.Streams.map (fun kv => rsyslogBlockLines c kv.1 kv.2)).flatten

/-! ### The spec's slug-derivation wording

Modelled from the spec: "take the binary path's final segment and its
parent directory's final segment; strip every character outside
`[A-Za-z0-9_-]` from each independently; join as `<parent>-<base>`",
reading "segment" as a `/`-separated component of the path string. -/

/-- The path's final `/`-separated segment. -/
def specFinalSegment (path : Str) : Str := (splitBy '/' path).getLastD []

/-- The final segment of the path's parent, i.e. the next-to-last
`/`-separated segment. -/
def specParentSegment (path : Str) : Str :=
  ((splitBy '/' path).dropLast).getLastD []

/-- The slug as the spec words it: sanitized parent segment, dash,
sanitized final segment. -/
def specSlug (path : Str) : Str :=
  sanitize (specParentSegment path) ++ '-' :: sanitize (specFinalSegment path)

/-! ### Concrete data used by witnesses and counterexamples -/

/-- A bridge on which every probe succeeds and every command works. -/
def exampleBridge : Bridge :=
  { userExists := true, useraddOk := true, groupExists := true,
    groupaddOk := true, daemonReloadOk := true, enableOk := true }

/-- A filesystem oracle on which every removal succeeds. -/
def exampleRemove : Str → RemoveRes := fun _ => RemoveRes.ok

/-- Concrete configuration with one stream, used to evaluate
`Uninstall`'s removal list. -/
def cfgUninstall : ServiceConfig :=
  { User := "svc".toList, Group := "svc".toList, UniqueName := "svc".toList,
    ServiceName := "svc.service".toList,
    BinaryPath := "/opt/svc/bin/svc".toList, LogDir := "/var/log/svc".toList,
    SystemdFile := "/etc/systemd/system/svc.service".toList,
    ServiceLines := [], MakeLogrotate := true,
    Streams := [("app".toList, "app.log".toList)] }

/-- A heap with one (empty) map table at reference 0. -/
def exampleHeap : Heap := [[]]

/-- The caller's configuration struct whose `Streams` field refers to
table 0. -/
def callerCfgRT : ServiceConfigRT :=
  { ServiceName := "svc.service".toList, SystemdFile := [],
    LogDir := "/var/log/svc".toList, MakeLogrotate := true, streamsRef := 0 }

/-- A two-stream configuration in one map iteration order. -/
def cfgOrderA : ServiceConfig :=
  { cfgUninstall with
    Streams := [("a".toList, "a.log".toList), ("b".toList, "b.log".toList)] }

/-- The same map contents in the other iteration order. -/
def cfgOrderB : ServiceConfig :=
  { cfgUninstall with
    Streams := [("b".toList, "b.log".toList), ("a".toList, "a.log".toList)] }

/-- Concrete configuration with an empty log directory but the
rotation flag requested. -/
def cfgNoLog : ServiceConfig :=
  { cfgUninstall with LogDir := [], MakeLogrotate := true }

/-- Concrete all-features configuration used by several witnesses
(matches the repository's own test fixture shapes). -/
def cfgDemo : ServiceConfig :=
  { User := "testuser".toList, Group := "testgroup".toList,
    UniqueName := "test-service".toList,
    ServiceName := "test-service.service".toList,
    BinaryPath := "/usr/bin/test".toList, LogDir := "/var/log/test".toList,
    SystemdFile := "/etc/systemd/system/test-service.service".toList,
    ServiceLines := ["Environment=TEST=1".toList, "TimeoutStopSec=30".toList],
    MakeLogrotate := true,
    Streams := [("app".toList, "app.log".toList),
      ("error".toList, "error.log".toList)] }

/-! ### Lemmas -/

theorem splitBy_ne_nil (sep : Char) (l : List Char) : splitBy sep l ≠ [] := by
  cases l with
  | nil => simp [splitBy]
  | cons c cs =>
    simp only [splitBy]
    split
    · simp
    · split <;> simp

theorem joinBy_cons_cons (sep : Char) (x y : List Char) (ys : List (List Char)) :
    joinBy sep (x :: y :: ys) = x ++ sep :: joinBy sep (y :: ys) := by
  simp [joinBy]

theorem joinBy_append (sep : Char) (l1 l2 : List (List Char))
    (h1 : l1 ≠ []) (h2 : l2 ≠ []) :
    joinBy sep (l1 ++ l2) = joinBy sep l1 ++ sep :: joinBy sep l2 := by
  induction l1 with
  | nil => exact absurd rfl h1
  | cons x xs ih =>
    cases xs with
    | nil =>
      cases l2 with
      | nil => exact absurd rfl h2
      | cons y ys => simp [joinBy_cons_cons, joinBy]
    | cons x2 xs2 =>
      have step := ih (by simp)
      calc joinBy sep ((x :: x2 :: xs2) ++ l2)
          = x ++ sep :: joinBy sep ((x2 :: xs2) ++ l2) := by
            rw [List.cons_append, List.cons_append, joinBy_cons_cons]
        _ = x ++ sep :: (joinBy sep (x2 :: xs2) ++ sep :: joinBy sep l2) := by rw [step]
        _ = joinBy sep (x :: x2 :: xs2) ++ sep :: joinBy sep l2 := by
            rw [joinBy_cons_cons]; simp

theorem splitBy_of_not_mem (sep : Char) (l : List Char) (h : sep ∉ l) :
    splitBy sep l = [l] := by
  induction l with
  | nil => simp [splitBy]
  | cons c cs ih =>
    have hc : c ≠ sep := fun hh => h (hh ▸ List.mem_cons_self c cs)
    have hcs : sep ∉ cs := fun hh => h (List.mem_cons_of_mem c hh)
    simp only [splitBy, if_neg (fun hh => hc hh), ih hcs]

theorem splitBy_append_sep (sep : Char) (a b : List Char) :
    splitBy sep (a ++ sep :: b) = splitBy sep a ++ splitBy sep b := by
  induction a with
  | nil => simp [splitBy]
  | cons c cs ih =>
    by_cases hc : c = sep
    · subst hc
      simp [splitBy, ih]
    · rcases hs : splitBy sep cs with _ | ⟨t, ts⟩
      · exact absurd hs (splitBy_ne_nil sep cs)
      · simp [splitBy, hc, ih, hs]

theorem splitBy_joinBy (sep : Char) (l : List (List Char))
    (hne : l ≠ []) (h : ∀ x ∈ l, sep ∉ x) :
    splitBy sep (joinBy sep l) = l := by
  induction l with
  | nil => exact absurd rfl hne
  | cons x xs ih =>
    cases xs with
    | nil =>
      simp only [joinBy, List.map_nil, List.flatten_nil, List.append_nil]
      exact splitBy_of_not_mem sep x (h x (by simp))
    | cons y ys =>
      rw [joinBy_cons_cons, splitBy_append_sep,
        splitBy_of_not_mem sep x (h x (by simp)),
        ih (by simp) (fun z hz => h z (List.mem_cons_of_mem x hz))]
      simp

/-! ### Helper lemmas on `takeWhile` / `dropWhile` and the path functions -/

theorem takeWhile_of_all {p : Char → Bool} {l : List Char} (h : ∀ c ∈ l, p c) :
    l.takeWhile p = l := by
  induction l with
  | nil => rfl
  | cons c cs ih =>
    simp [List.takeWhile_cons, h c (by simp), ih fun d hd => h d (by simp [hd])]

theorem takeWhile_append_stop {p : Char → Bool} {l1 : List Char} {d : Char}
    (l2 : List Char) (h1 : ∀ c ∈ l1, p c) (hd : ¬p d) :
    (l1 ++ d :: l2).takeWhile p = l1 := by
  induction l1 with
  | nil => simpa [List.takeWhile_cons] using hd
  | cons c cs ih =>
    simp [List.takeWhile_cons, h1 c (by simp), ih fun e he => h1 e (by simp [he])]

theorem dropWhile_of_all {p : Char → Bool} {l : List Char} (h : ∀ c ∈ l, p c) :
    l.dropWhile p = [] := by
  induction l with
  | nil => rfl
  | cons c cs ih =>
    simp [List.dropWhile_cons, h c (by simp), ih fun d hd => h d (by simp [hd])]

theorem dropWhile_append_of_all {p : Char → Bool} {l1 : List Char}
    (l2 : List Char) (h1 : ∀ c ∈ l1, p c) :
    (l1 ++ l2).dropWhile p = l2.dropWhile p := by
  induction l1 with
  | nil => rfl
  | cons c cs ih =>
    simp [List.dropWhile_cons, h1 c (by simp), ih fun d hd => h1 d (by simp [hd])]

theorem dropWhile_cons_of_neg {p : Char → Bool} {c : Char} (l : List Char)
    (h : ¬p c) : (c :: l).dropWhile p = c :: l := by
  simp [List.dropWhile_cons, h]

theorem afterLastSep_append {a b : Str} (hb : NoSep b) :
    afterLastSep (a ++ '/' :: b) = b := by
  unfold afterLastSep
  have : (a ++ '/' :: b).reverse = b.reverse ++ '/' :: a.reverse := by simp
  rw [this, takeWhile_append_stop a.reverse
    (fun c hc => by simpa using hb c (List.mem_reverse.mp hc)) (by simp [isSep])]
  simp

theorem afterLastSep_of_noSep {b : Str} (hb : NoSep b) : afterLastSep b = b := by
  unfold afterLastSep
  rw [takeWhile_of_all fun c hc => by simpa using hb c (List.mem_reverse.mp hc)]
  simp

theorem stripTrailingSep_append {a b : Str} (hbne : b ≠ []) (hb : NoSep b) :
    stripTrailingSep (a ++ b) = a ++ b := by
  unfold stripTrailingSep
  rcases hr : b.reverse with _ | ⟨c, cs⟩
  · exact absurd (by simpa using congrArg List.reverse hr) hbne
  · have hc : ¬isSep c := hb c (List.mem_reverse.mp (hr ▸ List.mem_cons_self c cs))
    have : (a ++ b).reverse = c :: (cs ++ a.reverse) := by
      rw [List.reverse_append, hr]; simp
    rw [this, dropWhile_cons_of_neg _ hc, ← this]
    simp

theorem stripTrailingSep_of_noSep {b : Str} (hbne : b ≠ []) (hb : NoSep b) :
    stripTrailingSep b = b := by
  simpa using stripTrailingSep_append (a := []) hbne hb

theorem upToLastSep_append {a b : Str} (hb : NoSep b) :
    upToLastSep (a ++ '/' :: b) = a ++ ['/'] := by
  unfold upToLastSep
  have : (a ++ '/' :: b).reverse = b.reverse ++ '/' :: a.reverse := by simp
  rw [this, dropWhile_append_of_all _
    (fun c hc => by simpa using hb c (List.mem_reverse.mp hc)),
    dropWhile_cons_of_neg _ (by simp [isSep])]
  simp

theorem upToLastSep_of_noSep {b : Str} (hb : NoSep b) : upToLastSep b = [] := by
  unfold upToLastSep
  rw [dropWhile_of_all fun c hc => by simpa using hb c (List.mem_reverse.mp hc)]
  rfl

/-- `goFilepathBase` of a path whose part after the last separator is a
nonempty separator-free suffix is that suffix. -/
theorem goFilepathBase_append {a b : Str} (hbne : b ≠ []) (hb : NoSep b) :
    goFilepathBase (a ++ '/' :: b) = b := by
  unfold goFilepathBase
  rw [if_neg (by simp)]
  have hstrip : stripTrailingSep (a ++ '/' :: b) = a ++ '/' :: b := by
    have := stripTrailingSep_append (a := a ++ ['/']) hbne hb
    simpa using this
  rw [hstrip, afterLastSep_append hb, if_neg hbne]

theorem goFilepathBase_of_noSep {b : Str} (hbne : b ≠ []) (hb : NoSep b) :
    goFilepathBase b = b := by
  unfold goFilepathBase
  rw [if_neg hbne, stripTrailingSep_of_noSep hbne hb, afterLastSep_of_noSep hb,
    if_neg hbne]

/-! ### Mode lemmas and the install write list -/

theorem writeSystemdUnit_mode (c : ServiceConfig) :
    (writeSystemdUnit c).mode = configFileMode := rfl

theorem writeRsyslogConf_mode (c : ServiceConfig) :
    ∀ w ∈ (writeRsyslogConf c).toList, w.mode = configFileMode := by
  intro w hw
  unfold writeRsyslogConf at hw
  split at hw <;> simp_all

theorem writeLogrotateConfs_mode (c : ServiceConfig) :
    ∀ w ∈ writeLogrotateConfs c, w.mode = configFileMode := by
  intro w hw
  unfold writeLogrotateConfs at hw
  split at hw
  · simp at hw
  · obtain ⟨kv, _, rfl⟩ := List.mem_map.mp hw
    rfl

/-- The file writes `Install` performs are either nothing (user/group
provisioning failed) or exactly: rsyslog config if a log directory is
set, the logrotate configs if additionally rotation is on, and the unit
file. -/
theorem installRun_writes (br : Bridge) (c : ServiceConfig) :
    (installRun br c).writes = []
    ∨ (installRun br c).writes =
        (if c.LogDir ≠ [] then (writeRsyslogConf c).toList else [])
          ++ (if c.LogDir ≠ [] ∧ c.MakeLogrotate then writeLogrotateConfs c else [])
          ++ [writeSystemdUnit c] := by
  rcases hE : ensureServiceUser br c.User c.Group with ⟨cs, e⟩
  cases e with
  | none =>
    right
    simp only [installRun, hE]
    split
    · rfl
    · split <;> rfl
  | some err =>
    left
    simp [installRun, hE]

/-- C9: `sanitize` is idempotent, its output contains only characters
of the class `[A-Za-z0-9_-]`, and it preserves every valid character of
the input (with multiplicity). -/
theorem sanitize_idempotent_and_preserving (x : Str) :
    sanitize (sanitize x) = sanitize x
    ∧ (∀ c ∈ sanitize x, isSlugChar c = true)
    ∧ (∀ c, isSlugChar c = true → (sanitize x).count c = x.count c) := by
  refine ⟨?_, ?_, ?_⟩
  · simp [sanitize, List.filter_filter]
  · intro c hc
    exact (List.mem_filter.mp hc).2
  · intro c hc
    unfold sanitize
    induction x with
    | nil => rfl
    | cons d ds ih =>
      by_cases hd : isSlugChar d
      · rw [List.filter_cons_of_pos hd]
        by_cases hdc : d = c
        · subst hdc
          simp [List.count_cons, ih]
        · simp [List.count_cons, hdc, ih]
      · rw [List.filter_cons_of_neg hd]
        have hdc : d ≠ c := fun e => hd (e ▸ hc)
        simp [List.count_cons, hdc, ih]

/-- Witness for C9 at the concrete input `my@app!`. -/
theorem sanitize_idempotent_and_preserving_witness :
    sanitize (sanitize "my@app!".toList) = sanitize "my@app!".toList
    ∧ isSlugChar 'm' = true
    ∧ (sanitize "my@app!".toList).count 'm' = "my@app!".toList.count 'm' :=
  ⟨(sanitize_idempotent_and_preserving "my@app!".toList).1, by decide,
    (sanitize_idempotent_and_preserving "my@app!".toList).2.2 'm' (by decide)⟩

/-- C1: evaluated at a configuration whose stream map contains the
stream `app` (so the claimed per-stream rotation path is
`/etc/logrotate.d/svc-app`), `Uninstall` passes to `os.Remove` the unit
file, the rsyslog config, and the single literal string
`/etc/logrotate.d/svc-*` — `os.Remove` performs no glob expansion — and
never attempts the per-stream path the claim requires. -/
theorem uninstall_attempts_literal_glob_not_per_stream :
    (uninstallRun exampleBridge exampleRemove cfgUninstall).removesAttempted =
      ["/etc/systemd/system/svc.service".toList, "/etc/rsyslog.d/svc.conf".toList,
        "/etc/logrotate.d/svc-*".toList]
    ∧ "/etc/logrotate.d/svc-app".toList ∉
        (uninstallRun exampleBridge exampleRemove cfgUninstall).removesAttempted := by
  decide

/-- C2: under Go struct-copy semantics `configCopy := *cfg` shares the
`Streams` map table with the caller, so a map entry the caller adds
after `NewManager` returns is observed by the Manager: the copy holds
the same table reference, observes the empty table before the mutation,
and observes the added entry after it. -/
theorem newManager_shares_streams_map_with_caller :
    (newManagerCopyRT callerCfgRT).streamsRef = callerCfgRT.streamsRef
    ∧ observedStreams exampleHeap (newManagerCopyRT callerCfgRT) = []
    ∧ observedStreams
        (heapAssign exampleHeap callerCfgRT.streamsRef "late".toList "late.log".toList)
        (newManagerCopyRT callerCfgRT)
      = [("late".toList, "late.log".toList)] := by
  decide

/-- C3: the relay renderer's output depends on the map iteration
order: the two iteration orders of the same two-entry `Streams` map
(equal as multisets of key/value pairs) yield different byte strings,
so two render runs on the identical configuration need not produce
identical file content. -/
theorem rsyslogConf_depends_on_map_iteration_order :
    cfgOrderA.Streams.Perm cfgOrderB.Streams
    ∧ rsyslogConfText cfgOrderA ≠ rsyslogConfText cfgOrderB := by
  constructor
  · decide
  · decide

/-- C10: every file the installer generates — the unit descriptor, the
rsyslog config, and each logrotate config — is written with the single
constant mode `configFileMode`, which is `0o644`; none of the writers
takes a per-file or per-configuration mode. -/
theorem all_config_writes_use_mode_0644 (c : ServiceConfig) (br : Bridge) :
    configFileMode = 0o644
    ∧ (writeSystemdUnit c).mode = configFileMode
    ∧ (∀ w ∈ (writeRsyslogConf c).toList, w.mode = configFileMode)
    ∧ (∀ w ∈ writeLogrotateConfs c, w.mode = configFileMode)
    ∧ (∀ w ∈ (installRun br c).writes, w.mode = configFileMode) := by
  refine ⟨rfl, rfl, writeRsyslogConf_mode c, writeLogrotateConfs_mode c, ?_⟩
  intro w hw
  rcases installRun_writes br c with h | h
  · rw [h] at hw
    simp at hw
  · rw [h] at hw
    rcases List.mem_append.mp hw with h1 | h1
    · rcases List.mem_append.mp h1 with h2 | h2
      · split at h2
        · exact writeRsyslogConf_mode c w h2
        · simp at h2
      · split at h2
        · exact writeLogrotateConfs_mode c w h2
        · simp at h2
    · rw [List.mem_singleton.mp h1]
      rfl

set_option maxRecDepth 16384 in
/-- Witness for C10 at the all-features configuration: the rsyslog
write and the first logrotate write carry mode `0o644`. -/
theorem all_config_writes_use_mode_0644_witness :
    configFileMode = 0o644
    ∧ (writeSystemdUnit cfgDemo).mode = configFileMode
    ∧ ({ path := rsyslogPath cfgDemo, content := rsyslogConfText cfgDemo,
          mode := configFileMode : FileWrite }).mode = configFileMode
    ∧ ({ path := logrotateCorePath cfgDemo ++ '-' :: "app".toList,
          content := logrotateConfText cfgDemo "app.log".toList,
          mode := configFileMode : FileWrite }).mode = configFileMode :=
  ⟨(all_config_writes_use_mode_0644 cfgDemo exampleBridge).1,
    (all_config_writes_use_mode_0644 cfgDemo exampleBridge).2.1,
    (all_config_writes_use_mode_0644 cfgDemo exampleBridge).2.2.1 _ (by decide),
    (all_config_writes_use_mode_0644 cfgDemo exampleBridge).2.2.2.1 _ (by decide)⟩

/-- C4: when the log directory is empty, the configuration the Manager
uses has `MakeLogrotate` forced to `false` (whatever was requested),
and an install through the Manager writes no rotation file — its
writes are nothing (provisioning failed) or exactly the unit file. -/
theorem empty_logDir_forces_no_rotation (cfg : ServiceConfig) (br : Bridge)
    (h : cfg.LogDir = []) :
    (newManagerCfg cfg).MakeLogrotate = false
    ∧ ((managerInstall br cfg).writes = []
        ∨ (managerInstall br cfg).writes = [writeSystemdUnit (newManagerCfg cfg)]) := by
  have hLog : (newManagerCfg cfg).LogDir = [] := by
    unfold newManagerCfg
    by_cases hs : cfg.SystemdFile = [] <;> by_cases hm : cfg.MakeLogrotate <;>
      simp [hs, hm, h]
  have hMk : (newManagerCfg cfg).MakeLogrotate = false := by
    unfold newManagerCfg
    by_cases hs : cfg.SystemdFile = [] <;> by_cases hm : cfg.MakeLogrotate <;>
      simp [hs, hm, h]
  refine ⟨hMk, ?_⟩
  rcases installRun_writes br (newManagerCfg cfg) with hw | hw
  · exact Or.inl hw
  · right
    unfold managerInstall
    rw [hw, if_neg (by simp [hLog]), if_neg (by simp [hLog])]
    simp

/-- Witness for C4 at a configuration that requests rotation but sets
no log directory. -/
theorem empty_logDir_forces_no_rotation_witness :
    (newManagerCfg cfgNoLog).MakeLogrotate = false
    ∧ ((managerInstall exampleBridge cfgNoLog).writes = []
        ∨ (managerInstall exampleBridge cfgNoLog).writes
          = [writeSystemdUnit (newManagerCfg cfgNoLog)]) :=
  empty_logDir_forces_no_rotation cfgNoLog exampleBridge rfl

/-- C8: when the user-existence probe reports that the user exists, no
`useradd` is issued at all; `useradd` is issued precisely when the
probe reports absence; and a failing `useradd` aborts the install with
the user-creation error before any file is written or any further
command runs. -/
theorem install_user_probe_guards_creation (br : Bridge) (c : ServiceConfig) :
    (br.userExists = true → ∀ u, GoCmd.useradd u ∉ (installRun br c).cmds)
    ∧ (br.userExists = false → GoCmd.useradd c.User ∈ (installRun br c).cmds)
    ∧ (br.userExists = false → br.useraddOk = false →
        (installRun br c).result = some (SvcError.createUserFailed c.User)
        ∧ (installRun br c).writes = []
        ∧ GoCmd.daemonReload ∉ (installRun br c).cmds) := by
  refine ⟨?_, ?_, ?_⟩
  · intro hu u
    simp only [installRun, ensureServiceUser, ensureGroupAfter, hu]
    split_ifs <;> simp
  · intro hu
    simp only [installRun, ensureServiceUser, ensureGroupAfter, hu]
    split_ifs <;> simp_all
  · intro hu ho
    simp [installRun, ensureServiceUser, hu, ho]

/-- Witness for C8: with an existing user no `useradd` appears; with an
absent user `useradd` appears; with an absent user and failing
`useradd` the install returns the creation error having written
nothing. -/
theorem install_user_probe_guards_creation_witness :
    GoCmd.useradd "svc".toList ∉ (installRun exampleBridge cfgUninstall).cmds
    ∧ GoCmd.useradd cfgUninstall.User
        ∈ (installRun { exampleBridge with userExists := false } cfgUninstall).cmds
    ∧ (installRun { exampleBridge with userExists := false, useraddOk := false }
          cfgUninstall).result
        = some (SvcError.createUserFailed cfgUninstall.User) :=
  ⟨(install_user_probe_guards_creation exampleBridge cfgUninstall).1 rfl _,
    (install_user_probe_guards_creation
      { exampleBridge with userExists := false } cfgUninstall).2.1 rfl,
    ((install_user_probe_guards_creation
      { exampleBridge with userExists := false, useraddOk := false }
      cfgUninstall).2.2 rfl rfl).1⟩

/-! ### Computing the line structure of rendered texts -/

theorem splitBy_nil (sep : Char) : splitBy sep [] = [[]] := rfl

theorem splitBy_cons_sep (sep : Char) (x : List Char) :
    splitBy sep (sep :: x) = [] :: splitBy sep x := by
  simp [splitBy]

theorem splitBy_append_noSep (sep : Char) (a x : List Char) (h : sep ∉ a) :
    splitBy sep (a ++ x)
      = (a ++ (splitBy sep x).headD []) :: (splitBy sep x).tail := by
  induction a with
  | nil =>
    rcases hs : splitBy sep x with _ | ⟨t, ts⟩
    · exact absurd hs (splitBy_ne_nil sep x)
    · simp [hs]
  | cons c cs ih =>
    have hc : c ≠ sep := fun hh => h (hh ▸ List.mem_cons_self c cs)
    have hcs : sep ∉ cs := fun hh => h (List.mem_cons_of_mem c hh)
    rcases hs : splitBy sep (cs ++ x) with _ | ⟨t, ts⟩
    · exact absurd hs (splitBy_ne_nil sep _)
    · have := ih hcs
      rw [hs] at this
      rw [List.cons.injEq] at this
      rw [List.cons_append]
      simp only [splitBy, if_neg hc]
      rw [hs]
      simp [this.1, this.2]

theorem splitBy_chunk (sep : Char) (a r : List Char) (h : sep ∉ a) :
    splitBy sep (a ++ sep :: r) = a :: splitBy sep r := by
  rw [splitBy_append_sep, splitBy_of_not_mem sep a h]
  rfl

theorem splitBy_cons_noSep (sep c : Char) (x : List Char) (h : c ≠ sep) :
    splitBy sep (c :: x)
      = (c :: (splitBy sep x).headD []) :: (splitBy sep x).tail := by
  rcases hs : splitBy sep x with _ | ⟨t, ts⟩
  · exact absurd hs (splitBy_ne_nil sep x)
  · simp [splitBy, h, hs]

/-- Splitting the `ServiceLines` splice (newline-joined lines plus one
trailing newline when nonempty) followed by `rest` yields the lines
followed by the split of `rest`. -/
theorem splitBy_splice (L : List Str) (rest : Str)
    (hL : ∀ l ∈ L, '\n' ∉ l) :
    splitBy '\n' ((if L.length > 0 then joinBy '\n' L ++ ['\n'] else []) ++ rest)
      = L ++ splitBy '\n' rest := by
  induction L with
  | nil => simp
  | cons l ls ih =>
    rcases ls with _ | ⟨l2, ls2⟩
    · have : joinBy '\n' [l] ++ ['\n'] = l ++ '\n' :: [] := by
        simp [joinBy]
      simp only [List.length_cons, Nat.zero_lt_succ, if_pos, gt_iff_lt, this]
      rw [List.append_assoc] at *
      rw [show (l ++ ('\n' :: [] ++ rest)) = l ++ '\n' :: rest by simp,
        splitBy_chunk _ _ _ (hL l (by simp))]
      simp
    · have hji : joinBy '\n' (l :: l2 :: ls2) ++ ['\n']
          = l ++ '\n' :: (joinBy '\n' (l2 :: ls2) ++ ['\n']) := by
        rw [joinBy_cons_cons]
        simp
      have ihh := ih (fun x hx => hL x (by simp [hx]))
      simp only [List.length_cons, Nat.zero_lt_succ, if_pos, gt_iff_lt] at ihh ⊢
      rw [hji, List.append_assoc, List.cons_append,
        splitBy_chunk _ _ _ (hL l (by simp)), ihh]
      simp

/-- The unit renderer's output, split at newlines, is exactly the fixed
header lines, the `ServiceLines` verbatim in order, and the fixed
footer lines — provided every injected value is newline-free. -/
theorem systemdUnitText_splitBy (c : ServiceConfig)
    (hU : '\n' ∉ c.UniqueName) (hB : '\n' ∉ c.BinaryPath)
    (hu : '\n' ∉ c.User) (hg : '\n' ∉ c.Group)
    (hsl : ∀ l ∈ c.ServiceLines, '\n' ∉ l) :
    splitBy '\n' (systemdUnitText c) = unitLines c := by
  have b1 : "[Unit]\nDescription=".toList
      = "[Unit]".toList ++ '\n' :: "Description=".toList := by decide
  have b2 : "\nAfter=network.target\n\n[Service]\nType=notify\nExecStart=".toList
      = '\n' :: "After=network.target".toList
        ++ '\n' :: '\n' :: "[Service]".toList
        ++ '\n' :: "Type=notify".toList ++ '\n' :: "ExecStart=".toList := by decide
  have b3 : "\nRestart=on-failure\nUser=".toList
      = '\n' :: "Restart=on-failure".toList ++ '\n' :: "User=".toList := by decide
  have b4 : "\nGroup=".toList = '\n' :: "Group=".toList := by decide
  have b5 : "[Install]\nWantedBy=multi-user.target\n".toList
      = "[Install]".toList ++ '\n' :: "WantedBy=multi-user.target".toList
        ++ '\n' :: ([] : Str) := by decide
  have n1 : '\n' ∉ "Description=".toList := by decide
  have n2 : '\n' ∉ "After=network.target".toList := by decide
  have n3 : '\n' ∉ "[Service]".toList := by decide
  have n4 : '\n' ∉ "Type=notify".toList := by decide
  have n5 : '\n' ∉ "ExecStart=".toList := by decide
  have n6 : '\n' ∉ "Restart=on-failure".toList := by decide
  have n7 : '\n' ∉ "User=".toList := by decide
  have n8 : '\n' ∉ "Group=".toList := by decide
  have n9 : '\n' ∉ "[Install]".toList := by decide
  have n10 : '\n' ∉ "WantedBy=multi-user.target".toList := by decide
  have n11 : '\n' ∉ "[Unit]".toList := by decide
  unfold systemdUnitText unitLines unitHeaderLines unitFooterLines
  rw [b1, b2, b3, b4, b5]
  simp only [List.append_assoc, List.cons_append, List.nil_append,
    splitBy_append_noSep, splitBy_cons_sep, splitBy_splice, splitBy_nil,
    List.headD_cons, List.tail_cons, List.append_nil,
    hU, hB, hu, hg, hsl, n1, n2, n3, n4, n5, n6, n7, n8, n9, n10, n11,
    not_false_eq_true]
  rw [splitBy_splice _ _ hsl]
  simp only [splitBy_append_noSep, splitBy_cons_sep, splitBy_nil,
    List.headD_cons, List.tail_cons, List.append_nil, List.cons_append,
    n9, n10, not_false_eq_true]

/-- C7: the unit renderer splices the `ServiceLines` sequence into the
`[Service]` section verbatim, one line each, preserving the input order
exactly (sequence equality): the rendered unit's lines are the fixed
header lines (ending with the `Group=` line), then `ServiceLines`
unchanged and in order, then the `[Install]` block; an empty sequence
yields no lines between the `Group=` line and `[Install]`. Injected
values are assumed newline-free (the renderer performs no escaping). -/
theorem unit_renderer_splices_serviceLines_verbatim (c : ServiceConfig)
    (hU : NoNl c.UniqueName) (hB : NoNl c.BinaryPath)
    (hu : NoNl c.User) (hg : NoNl c.Group)
    (hsl : ∀ l ∈ c.ServiceLines, NoNl l) :
    splitBy '\n' (systemdUnitText c)
      = unitHeaderLines c ++ c.ServiceLines ++ unitFooterLines :=
  systemdUnitText_splitBy c hU hB hu hg hsl

/-- Witness for C7: the two `ServiceLines` of the demo configuration
appear verbatim and in order, and the empty sequence adds no lines. -/
theorem unit_renderer_splices_serviceLines_verbatim_witness :
    splitBy '\n' (systemdUnitText cfgDemo)
      = unitHeaderLines cfgDemo ++ cfgDemo.ServiceLines ++ unitFooterLines
    ∧ splitBy '\n' (systemdUnitText { cfgDemo with ServiceLines := [] })
      = unitHeaderLines cfgDemo ++ unitFooterLines := by
  constructor
  · exact unit_renderer_splices_serviceLines_verbatim cfgDemo (by decide)
      (by decide) (by decide) (by decide) (by decide)
  · have h := unit_renderer_splices_serviceLines_verbatim
      { cfgDemo with ServiceLines := [] } (by decide) (by decide) (by decide)
      (by decide) (by decide)
    simpa using h

/-- One stream's rendered rule block, split at newlines, is its six
lines, provided the injected values are newline-free. -/
theorem rsyslogStreamBlock_splitBy (c : ServiceConfig) (k v : Str)
    (hk : '\n' ∉ k) (hv : '\n' ∉ v) (hL : '\n' ∉ c.LogDir)
    (hU : '\n' ∉ c.UniqueName) (hu : '\n' ∉ c.User) (hg : '\n' ∉ c.Group) :
    splitBy '\n' (rsyslogStreamBlock c k v) = rsyslogBlockLines c k v := by
  have r1 : "' then \x7b\n\taction(type=\"omfile\" file=\"".toList
      = "' then \x7b".toList
        ++ '\n' :: "\taction(type=\"omfile\" file=\"".toList := by decide
  have r2 : "\"\n         dirCreateMode=\"0750\" dirOwner=\"".toList
      = "\"".toList
        ++ '\n' :: "         dirCreateMode=\"0750\" dirOwner=\"".toList := by decide
  have r3 : "\"\n\t\t fileCreateMode=\"0640\" fileOwner=\"".toList
      = "\"".toList
        ++ '\n' :: "\t\t fileCreateMode=\"0640\" fileOwner=\"".toList := by decide
  have r4 : "\")\n\tstop\n\x7d".toList
      = "\")".toList ++ '\n' :: "\tstop".toList ++ '\n' :: "\x7d".toList := by decide
  have mlast : splitBy '\n' "\x7d".toList = ["\x7d".toList] := by decide
  have stepNoNl : ∀ a : Str, '\n' ∉ a → ∀ x, splitBy '\n' (a ++ x)
      = (a ++ (splitBy '\n' x).headD []) :: (splitBy '\n' x).tail :=
    fun a ha x => splitBy_append_noSep '\n' a x ha
  have s1 := stepNoNl "if $msg contains 'stream=".toList (by decide)
  have s2 := stepNoNl "' then \x7b".toList (by decide)
  have s3 := stepNoNl "\taction(type=\"omfile\" file=\"".toList (by decide)
  have s5 := stepNoNl "\" template=\"".toList (by decide)
  have s6 := stepNoNl "\"".toList (by decide)
  have s7 := stepNoNl "         dirCreateMode=\"0750\" dirOwner=\"".toList (by decide)
  have s8 := stepNoNl "\" dirGroup=\"".toList (by decide)
  have s9 := stepNoNl "\t\t fileCreateMode=\"0640\" fileOwner=\"".toList (by decide)
  have s10 := stepNoNl "\" fileGroup=\"".toList (by decide)
  have s11 := stepNoNl "\")".toList (by decide)
  have s12 := stepNoNl "\tstop".toList (by decide)
  have sK := stepNoNl k hk
  have sV := stepNoNl v hv
  have sLog := stepNoNl c.LogDir hL
  have sU := stepNoNl c.UniqueName hU
  have sUser := stepNoNl c.User hu
  have sG := stepNoNl c.Group hg
  have sSlash : ∀ x, splitBy '\n' ('/' :: x)
      = ('/' :: (splitBy '\n' x).headD []) :: (splitBy '\n' x).tail :=
    fun x => splitBy_cons_noSep '\n' '/' x (by decide)
  unfold rsyslogStreamBlock rsyslogBlockLines ruleLine rulePrefix stopLine
  rw [r1, r2, r3, r4]
  simp only [List.append_assoc, List.cons_append, List.nil_append,
    s1, s2, s3, s5, s6, s7, s8, s9, s10, s11, s12,
    sK, sV, sLog, sU, sUser, sG, sSlash, splitBy_cons_sep, mlast,
    List.headD_cons, List.tail_cons, List.append_nil]

/-- The newline-join of the rendered blocks of a nonempty stream list,
split at newlines, is the concatenation of their line lists. -/
theorem rsyslog_blocks_splitBy (c : ServiceConfig) (streams : List (Str × Str))
    (hs : ∀ kv ∈ streams, '\n' ∉ kv.1 ∧ '\n' ∉ kv.2)
    (hL : '\n' ∉ c.LogDir) (hU : '\n' ∉ c.UniqueName)
    (hu : '\n' ∉ c.User) (hg : '\n' ∉ c.Group) (hne : streams ≠ []) :
    splitBy '\n' (joinBy '\n' (streams.map fun kv => rsyslogStreamBlock c kv.1 kv.2))
      = (streams.map fun kv => rsyslogBlockLines c kv.1 kv.2).flatten := by
  induction streams with
  | nil => exact absurd rfl hne
  | cons kv rest ih =>
    have hkv := hs kv (by simp)
    have hb := rsyslogStreamBlock_splitBy c kv.1 kv.2 hkv.1 hkv.2 hL hU hu hg
    rcases rest with _ | ⟨kv2, rest2⟩
    · simp [joinBy, hb]
    · have ihh := ih (fun x hx => hs x (by simp [hx])) (by simp)
      simp only [List.map_cons] at ihh ⊢
      rw [joinBy_cons_cons, splitBy_append_sep, hb, ihh]
      simp

/-- The rsyslog config of a configuration with a nonempty stream list,
split at newlines, is the header lines followed by all block lines. -/
theorem rsyslogConfText_splitBy (c : ServiceConfig)
    (hU : '\n' ∉ c.UniqueName) (hL : '\n' ∉ c.LogDir)
    (hu : '\n' ∉ c.User) (hg : '\n' ∉ c.Group)
    (hs : ∀ kv ∈ c.Streams, '\n' ∉ kv.1 ∧ '\n' ∉ kv.2)
    (hne : c.Streams ≠ []) :
    splitBy '\n' (rsyslogConfText c) = rsyslogLines c := by
  have g1 : "module(load=\"imuxsock\")\nmodule(load=\"imklog\")\nmodule(load=\"omfile\")\ntemplate(name=\"".toList
      = "module(load=\"imuxsock\")".toList
        ++ '\n' :: "module(load=\"imklog\")".toList
        ++ '\n' :: "module(load=\"omfile\")".toList
        ++ '\n' :: "template(name=\"".toList := by decide
  have g2 : "\" type=\"string\" string=\"%msg%\\n\")\n".toList
      = "\" type=\"string\" string=\"%msg%\\n\")".toList ++ '\n' :: ([] : Str) := by
    decide
  have q1 : '\n' ∉ "module(load=\"imuxsock\")".toList := by decide
  have q2 : '\n' ∉ "module(load=\"imklog\")".toList := by decide
  have q3 : '\n' ∉ "module(load=\"omfile\")".toList := by decide
  have q4 : '\n' ∉ "template(name=\"".toList := by decide
  have q5 : '\n' ∉ "\" type=\"string\" string=\"%msg%\\n\")".toList := by decide
  unfold rsyslogConfText rsyslogLines rsyslogHeaderLines
  rw [g1, g2]
  simp only [List.append_assoc, List.cons_append, List.nil_append,
    splitBy_append_noSep, splitBy_cons_sep,
    List.headD_cons, List.tail_cons, List.append_nil,
    hU, q1, q2, q3, q4, q5, not_false_eq_true]
  rw [rsyslog_blocks_splitBy c c.Streams hs hL hU hu hg hne]

/-! ### Counting rules and stop directives -/

theorem countLine_cons (t l : Str) (ls : List Str) :
    countLine t (l :: ls) = (if l = t then 1 else 0) + countLine t ls := rfl

theorem countLine_append (t : Str) (l1 l2 : List Str) :
    countLine t (l1 ++ l2) = countLine t l1 + countLine t l2 := by
  induction l1 with
  | nil => simp [countLine]
  | cons l ls ih => simp [countLine, ih, Nat.add_assoc]

theorem countStarting_append (pre : Str) (l1 l2 : List Str) :
    countStarting pre (l1 ++ l2)
      = countStarting pre l1 + countStarting pre l2 := by
  induction l1 with
  | nil => simp [countStarting]
  | cons l ls ih => simp [countStarting, ih, Nat.add_assoc]

theorem countStarting_rulePrefix_block (c : ServiceConfig) (k v : Str) :
    countStarting rulePrefix (rsyslogBlockLines c k v) = 1 := rfl

theorem countStarting_rulePrefix_header (c : ServiceConfig) :
    countStarting rulePrefix (rsyslogHeaderLines c) = 0 := rfl

theorem countLine_stop_block (c : ServiceConfig) (k v : Str) :
    countLine stopLine (rsyslogBlockLines c k v) = 1 := rfl

theorem countLine_stop_header (c : ServiceConfig) :
    countLine stopLine (rsyslogHeaderLines c) = 0 := rfl

theorem countLine_rule_header (c : ServiceConfig) (k : Str) :
    countLine (ruleLine k) (rsyslogHeaderLines c) = 0 := rfl

theorem countLine_rule_block_tail (c : ServiceConfig) (k k2 v2 : Str) :
    countLine (ruleLine k) ((rsyslogBlockLines c k2 v2).tail) = 0 := rfl

theorem ruleLine_inj {a b : Str} (h : ruleLine a = ruleLine b) : a = b := by
  unfold ruleLine at h
  have h1 : rulePrefix ++ a = rulePrefix ++ b := List.append_cancel_right h
  exact List.append_cancel_left h1

theorem countLine_rule_block (c : ServiceConfig) (k k2 v2 : Str) :
    countLine (ruleLine k) (rsyslogBlockLines c k2 v2)
      = if k2 = k then 1 else 0 := by
  have hshape : rsyslogBlockLines c k2 v2
      = ruleLine k2 :: (rsyslogBlockLines c k2 v2).tail := rfl
  rw [hshape, countLine_cons, countLine_rule_block_tail]
  by_cases h : k2 = k
  · subst h
    rw [if_pos rfl, if_pos rfl]
  · rw [if_neg (fun e => h (ruleLine_inj e)), if_neg h]

theorem countStarting_rule_flatten (c : ServiceConfig)
    (streams : List (Str × Str)) :
    countStarting rulePrefix
        ((streams.map fun kv => rsyslogBlockLines c kv.1 kv.2).flatten)
      = streams.length := by
  induction streams with
  | nil => rfl
  | cons kv rest ih =>
    simp [countStarting_append, countStarting_rulePrefix_block, ih,
      Nat.add_comm]

theorem countLine_stop_flatten (c : ServiceConfig)
    (streams : List (Str × Str)) :
    countLine stopLine
        ((streams.map fun kv => rsyslogBlockLines c kv.1 kv.2).flatten)
      = streams.length := by
  induction streams with
  | nil => rfl
  | cons kv rest ih =>
    simp [countLine_append, countLine_stop_block, ih, Nat.add_comm]

theorem countLine_rule_flatten (c : ServiceConfig) (k : Str)
    (streams : List (Str × Str)) :
    countLine (ruleLine k)
        ((streams.map fun kv => rsyslogBlockLines c kv.1 kv.2).flatten)
      = (streams.map Prod.fst).count k := by
  induction streams with
  | nil => rfl
  | cons kv rest ih =>
    simp only [List.map_cons, List.flatten_cons, countLine_append,
      countLine_rule_block, ih, List.count_cons]
    by_cases h : kv.1 = k <;> simp [h, Nat.add_comm]

theorem count_eq_one_of_mem_nodup {l : List Str} {a : Str}
    (hnd : l.Nodup) (ha : a ∈ l) : l.count a = 1 := by
  induction l with
  | nil => simp at ha
  | cons b bs ih =>
    rcases List.nodup_cons.mp hnd with ⟨hb, hnd2⟩
    rcases List.mem_cons.mp ha with rfl | ha2
    · rw [List.count_cons_self, List.count_eq_zero_of_not_mem hb]
    · have hne : a ≠ b := by
        intro e
        rw [e] at ha2
        exact hb ha2
      rw [List.count_cons_of_ne hne, ih hnd2 ha2]

/-- C6: if the stream mapping is empty the relay renderer writes no
file; otherwise one file is written whose lines contain exactly one
filter-and-route rule per stream key (with unique keys, exactly one per
key) and whose number of `stop` directives equals the number of
streams. Injected values are assumed newline-free. -/
theorem relay_renderer_one_rule_per_stream (c : ServiceConfig)
    (hU : NoNl c.UniqueName) (hL : NoNl c.LogDir)
    (hu : NoNl c.User) (hg : NoNl c.Group)
    (hs : ∀ kv ∈ c.Streams, NoNl kv.1 ∧ NoNl kv.2) :
    (c.Streams = [] → writeRsyslogConf c = none)
    ∧ (c.Streams ≠ [] → ∃ w, writeRsyslogConf c = some w
        ∧ countStarting rulePrefix (splitBy '\n' w.content) = c.Streams.length
        ∧ countLine stopLine (splitBy '\n' w.content) = c.Streams.length
        ∧ (∀ kv ∈ c.Streams,
            countLine (ruleLine kv.1) (splitBy '\n' w.content)
              = (c.Streams.map Prod.fst).count kv.1)
        ∧ ((c.Streams.map Prod.fst).Nodup →
            ∀ kv ∈ c.Streams,
              countLine (ruleLine kv.1) (splitBy '\n' w.content) = 1)) := by
  constructor
  · intro h
    unfold writeRsyslogConf
    rw [if_pos (by simp [h])]
  · intro hne
    refine ⟨⟨rsyslogPath c, rsyslogConfText c, configFileMode⟩, ?_, ?_, ?_, ?_, ?_⟩
    · unfold writeRsyslogConf
      rw [if_neg (by simpa using hne)]
    · rw [rsyslogConfText_splitBy c hU hL hu hg hs hne]
      unfold rsyslogLines
      rw [countStarting_append, countStarting_rulePrefix_header,
        countStarting_rule_flatten]
      simp
    · rw [rsyslogConfText_splitBy c hU hL hu hg hs hne]
      unfold rsyslogLines
      rw [countLine_append, countLine_stop_header, countLine_stop_flatten]
      simp
    · intro kv hkv
      rw [rsyslogConfText_splitBy c hU hL hu hg hs hne]
      unfold rsyslogLines
      rw [countLine_append, countLine_rule_header, countLine_rule_flatten]
      simp
    · intro hnd kv hkv
      rw [rsyslogConfText_splitBy c hU hL hu hg hs hne]
      unfold rsyslogLines
      rw [countLine_append, countLine_rule_header, countLine_rule_flatten]
      simpa using count_eq_one_of_mem_nodup hnd (List.mem_map_of_mem Prod.fst hkv)

/-- Witness for C6 at the two-stream demo configuration: a file is
written, with two rules, two stops, and exactly one rule for the key
`app`; and the empty mapping writes nothing. -/
theorem relay_renderer_one_rule_per_stream_witness :
    (∃ w, writeRsyslogConf cfgDemo = some w
      ∧ countStarting rulePrefix (splitBy '\n' w.content)
          = cfgDemo.Streams.length
      ∧ countLine stopLine (splitBy '\n' w.content) = cfgDemo.Streams.length
      ∧ countLine (ruleLine "app".toList) (splitBy '\n' w.content) = 1)
    ∧ writeRsyslogConf { cfgDemo with Streams := [] } = none := by
  constructor
  · obtain ⟨w, hw, h1, h2, _, h4⟩ :=
      (relay_renderer_one_rule_per_stream cfgDemo (by decide) (by decide)
        (by decide) (by decide) (by decide)).2 (by decide)
    exact ⟨w, hw, h1, h2, h4 (by decide) ("app".toList, "app.log".toList) (by decide)⟩
  · exact (relay_renderer_one_rule_per_stream { cfgDemo with Streams := [] }
      (by decide) (by decide) (by decide) (by decide) (by decide)).1 rfl

/-! ### The slug derivation (C5) -/

theorem cleanStep_normal (r : Bool) (acc : List Str) (comp : Str)
    (h1 : comp ≠ []) (h2 : comp ≠ ['.']) (h3 : comp ≠ ['.', '.']) :
    cleanStep r acc comp = acc ++ [comp] := by
  unfold cleanStep
  rw [if_neg (by simp [h1, h2]), if_neg h3]

theorem cleanStep_empty (r : Bool) (acc : List Str) :
    cleanStep r acc [] = acc := by
  unfold cleanStep
  rw [if_pos (Or.inl rfl)]

theorem joinBy_single (sep : Char) (x : List Char) : joinBy sep [x] = x := by
  simp [joinBy]

theorem getLastD_concat (L : List Str) (x d : Str) :
    (L ++ [x]).getLastD d = x := by
  rw [List.getLastD_eq_getLast?, List.getLast?_concat]
  rfl

/-- `Base (Dir path)` of a path of the form `<pre>/<p>/<b>` is `p`, when
`p` and `b` are nonempty separator-free segments and `p` is not `.` or
`..`. -/
theorem goFilepathBase_goFilepathDir (pre p b : Str)
    (hp : p ≠ []) (hpn : NoSep p) (hp1 : p ≠ ['.']) (hp2 : p ≠ ['.', '.'])
    (hb : b ≠ []) (hbn : NoSep b) :
    goFilepathBase (goFilepathDir ((pre ++ '/' :: p) ++ '/' :: b)) = p := by
  have hpm : '/' ∉ p := fun hm => hpn '/' hm (by simp [isSep])
  have hup : upToLastSep ((pre ++ '/' :: p) ++ '/' :: b)
      = (pre ++ '/' :: p) ++ ['/'] := upToLastSep_append hbn
  have hsplit : splitBy '/' ((pre ++ '/' :: p) ++ ['/'])
      = (splitBy '/' pre ++ [p]) ++ [[]] := by
    have e1 : (pre ++ '/' :: p) ++ ['/'] = pre ++ '/' :: (p ++ '/' :: []) := by
      simp
    rw [e1, splitBy_append_sep]
    rw [splitBy_append_sep, splitBy_of_not_mem '/' p hpm]
    simp [splitBy]
  unfold goFilepathDir
  rw [hup]
  simp only [goFilepathClean, hsplit, List.foldl_append, List.foldl_cons,
    List.foldl_nil, List.append_eq_nil, List.cons_ne_nil, and_false,
    if_false]
  rw [cleanStep_normal _ _ _ hp hp1 hp2, cleanStep_empty]
  rw [if_neg (by simp)]
  rcases hS : (splitBy '/' pre).foldl
      (cleanStep (isSep (((pre ++ '/' :: p) ++ ['/']).headD ' '))) [] with _ | ⟨s, ss⟩
  · rw [List.nil_append, joinBy_single]
    rcases isSep (((pre ++ '/' :: p) ++ ['/']).headD ' ') with _ | _
    · simpa using goFilepathBase_of_noSep hp hpn
    · simpa using goFilepathBase_append (a := []) hp hpn
  · rw [joinBy_append '/' (s :: ss) [p] (by simp) (by simp), joinBy_single,
      ← List.append_assoc]
    exact goFilepathBase_append hp hpn

/-- C5: `NewServiceConfig` derives the slug and the service name from
the binary path exactly as the spec words it: sanitize the parent
directory's final segment and the path's final segment independently
and join them as `<parent>-<base>`; the service name is the slug plus
the fixed `.service` suffix. Stated for paths `<pre>/<p>/<b>` whose
last two segments are nonempty, separator-free and not `.` or `..`
(the shapes on which "segment" is unambiguous). The derivation is a
pure function of the path string — the embedding has no filesystem. -/
theorem slug_derivation_matches_spec (user group logDir pre p b : Str)
    (hp : p ≠ []) (hpn : NoSep p) (hp1 : p ≠ ['.']) (hp2 : p ≠ ['.', '.'])
    (hb : b ≠ []) (hbn : NoSep b) :
    (newServiceConfig user group ((pre ++ '/' :: p) ++ '/' :: b) logDir).UniqueName
      = specSlug ((pre ++ '/' :: p) ++ '/' :: b)
    ∧ (newServiceConfig user group ((pre ++ '/' :: p) ++ '/' :: b) logDir).ServiceName
      = specSlug ((pre ++ '/' :: p) ++ '/' :: b) ++ ".service".toList := by
  have hbm : '/' ∉ b := fun hm => hbn '/' hm (by simp [isSep])
  have hpm : '/' ∉ p := fun hm => hpn '/' hm (by simp [isSep])
  have hbase : goFilepathBase ((pre ++ '/' :: p) ++ '/' :: b) = b :=
    goFilepathBase_append hb hbn
  have hdir := goFilepathBase_goFilepathDir pre p b hp hpn hp1 hp2 hb hbn
  have hspec : specSlug ((pre ++ '/' :: p) ++ '/' :: b)
      = sanitize p ++ '-' :: sanitize b := by
    have hsp : splitBy '/' ((pre ++ '/' :: p) ++ '/' :: b)
        = (splitBy '/' pre ++ [p]) ++ [b] := by
      rw [splitBy_append_sep, splitBy_append_sep,
        splitBy_of_not_mem '/' p hpm, splitBy_of_not_mem '/' b hbm]
    unfold specSlug specParentSegment specFinalSegment
    rw [hsp, List.dropLast_concat, getLastD_concat, getLastD_concat]
  have hun : (newServiceConfig user group ((pre ++ '/' :: p) ++ '/' :: b)
      logDir).UniqueName
      = sanitize p ++ '-' :: sanitize b := by
    simp only [newServiceConfig, hbase, hdir]
  refine ⟨by rw [hun, hspec], ?_⟩
  have hsn : (newServiceConfig user group ((pre ++ '/' :: p) ++ '/' :: b)
      logDir).ServiceName
      = (sanitize p ++ '-' :: sanitize b) ++ ".service".toList := by
    simp only [newServiceConfig, hbase, hdir]
  rw [hsn, hspec]

/-- Witness for C5 at the spec's own end-to-end example path
`/opt/app/bin/app`: the slug is `bin-app` and the service name is
`bin-app.service`, matching the segment-based derivation. -/
theorem slug_derivation_matches_spec_witness :
    (newServiceConfig "svc".toList "svc".toList "/opt/app/bin/app".toList
        "/var/log/app".toList).UniqueName
      = specSlug "/opt/app/bin/app".toList
    ∧ (newServiceConfig "svc".toList "svc".toList "/opt/app/bin/app".toList
        "/var/log/app".toList).ServiceName
      = specSlug "/opt/app/bin/app".toList ++ ".service".toList := by
  have e : "/opt/app/bin/app".toList
      = ("/opt/app".toList ++ '/' :: "bin".toList) ++ '/' :: "app".toList := by
    decide
  rw [e]
  exact slug_derivation_matches_spec "svc".toList "svc".toList
    "/var/log/app".toList "/opt/app".toList "bin".toList "app".toList
    (by decide) (by decide) (by decide) (by decide) (by decide) (by decide)

end Systemd
